import Mathlib

/-!
Shallow embedding of the fairness/capacity utility module of the
jbg-truck-platform repository (`fairness.ts` and the sibling helper in
`initialLoads.ts`), together with theorems settling the specification
claims about it.

Modelling conventions:
* JavaScript numbers are modelled as exact rationals (`Rat`).
* The two derived metric fields that arise from a division are modelled as
  `Option Rat`, where `none` encodes the non-finite JavaScript value (NaN)
  produced by dividing by zero; `Math.round` propagates NaN, modelled by
  `Option.map`.
* `Math.round` on a finite value rounds half toward positive infinity,
  modelled by `jsRound q = ⌊q + 1/2⌋`.
* `Array.prototype.sort` (stable since ES2019) with comparator `c` is
  modelled as the stable `List.mergeSort` with the Boolean relation
  `le a b := c a b ≤ 0`.
* `Array.prototype.find` is `List.find?` (first match in input order).
-/

/-- a truck record, as in the repository's `Truck` type -/
structure Truck where
  id : String
  truckId : String
  contractorName : String
  size : String
  capacityTons : Rat
  weeklyLoads : Rat
  minWeeklyLoads : Rat
  active : Bool
deriving DecidableEq

/-- a load record, as in the repository's `Load` type -/
structure Load where
  id : String
  loadId : String
  sizeTons : Rat
  destination : String
  origin : String
  priority : String
  deadline : String
  status : String
  assignedTruckId : Option String
deriving DecidableEq

/-- the `FairnessMetrics` result type; the two division-derived fields are
`Option Rat`, with `none` encoding JavaScript NaN -/
structure FairnessMetrics where
  totalTrucks : Nat
  trucksAtQuota : Nat
  trucksBelowQuota : Nat
  trucksAboveQuota : Nat
  fairnessPercentage : Option Rat
  averageLoadsPerTruck : Option Rat
deriving DecidableEq

/-- a candidate `(loadId, truckId)` pair -/
structure Assignment where
  loadId : String
  truckId : String
deriving DecidableEq

/-- JavaScript `Math.round` on a finite value: round half toward +infinity -/
def jsRound (q : Rat) : Int := ⌊q + 1/2⌋

/-- JavaScript division where a zero divisor produces a non-finite value
(NaN here, since every call site has a zero numerator as well),
encoded as `none` -/
def jsDivOpt (a b : Rat) : Option Rat := if b = 0 then none else some (a / b)

namespace fairness

/-- embedding of `calculateFairnessMetrics` from `fairness.ts` -/
def calculateFairnessMetrics (trucks : List Truck) : FairnessMetrics :=
  let activeTrucks := trucks.filter (fun t => t.active)
  if activeTrucks.length = 0 then
    { totalTrucks := 0
      trucksAtQuota := 0
      trucksBelowQuota := 0
      trucksAboveQuota := 0
      fairnessPercentage := some 0
      averageLoadsPerTruck := some 0 }
  else
    let belowQuota := activeTrucks.filter (fun t => decide (t.weeklyLoads < t.minWeeklyLoads))
    let atQuota := activeTrucks.filter (fun t => decide (t.weeklyLoads = t.minWeeklyLoads))
    let aboveQuota := activeTrucks.filter (fun t => decide (t.weeklyLoads > t.minWeeklyLoads))
    let totalLoads := activeTrucks.foldl (fun sum t => sum + t.weeklyLoads) 0
    { totalTrucks := activeTrucks.length
      trucksAtQuota := atQuota.length
      trucksBelowQuota := belowQuota.length
      trucksAboveQuota := aboveQuota.length
      fairnessPercentage :=
        (jsDivOpt ((atQuota.length + aboveQuota.length : Nat) : Rat) (activeTrucks.length : Rat)).map
          (fun r => ((jsRound (r * 100) : Int) : Rat))
      averageLoadsPerTruck :=
        (jsDivOpt totalLoads (activeTrucks.length : Rat)).map
          (fun r => ((jsRound (r * 10) : Int) : Rat) / 10) }

/-- the sort relation induced by the comparator `(a, b) => a.weeklyLoads - b.weeklyLoads`
of `getTrucksBelowQuota`: `a` may precede `b` iff the comparator is ≤ 0 -/
def belowQuotaLe (a b : Truck) : Bool := decide (a.weeklyLoads - b.weeklyLoads ≤ 0)

/-- embedding of `getTrucksBelowQuota` from `fairness.ts`: filter to active
below-quota trucks, stable-sort by the comparator `a.weeklyLoads - b.weeklyLoads` -/
def getTrucksBelowQuota (trucks : List Truck) : List Truck :=
  (trucks.filter (fun t => t.active && decide (t.weeklyLoads < t.minWeeklyLoads))).mergeSort
    belowQuotaLe

/-- embedding of `getUnassignedLoads` from `fairness.ts` -/
def getUnassignedLoads (loads : List Load) : List Load :=
  loads.filter (fun l => l.status == "unassigned")

/-- embedding of `getLoadsNeededForQuota` from `fairness.ts` -/
def getLoadsNeededForQuota (truck : Truck) : Rat :=
  if !truck.active then 0 else max 0 (truck.minWeeklyLoads - truck.weeklyLoads)

/-- embedding of `canLoadFitInTruck` from `fairness.ts` -/
def canLoadFitInTruck (load : Load) (truck : Truck) : Bool :=
  truck.active && decide (load.sizeTons ≤ truck.capacityTons)

/-- the sort relation induced by the two-key comparator of `findSuitableTrucks`
(`bNeeds - aNeeds` when the needs differ, else `a.weeklyLoads - b.weeklyLoads`):
`a` may precede `b` iff the comparator is ≤ 0 -/
def suitabilityLe (a b : Truck) : Bool :=
  if getLoadsNeededForQuota a ≠ getLoadsNeededForQuota b then
    decide (getLoadsNeededForQuota b - getLoadsNeededForQuota a ≤ 0)
  else
    decide (a.weeklyLoads - b.weeklyLoads ≤ 0)

/-- embedding of `findSuitableTrucks` from `fairness.ts`: filter to trucks the
load fits in, stable-sort by need descending then weeklyLoads ascending -/
def findSuitableTrucks (load : Load) (trucks : List Truck) : List Truck :=
  (trucks.filter (fun t => canLoadFitInTruck load t)).mergeSort suitabilityLe

/-- the `AssignmentValidation` result type of `fairness.ts` -/
structure AssignmentValidation where
  valid : Bool
  errors : List String
deriving DecidableEq

/-- the errors contributed by one pair of the loop body of
`validateAssignments`: the two `continue` statements become the first two
match arms, after which every remaining check is evaluated -/
def pairErrors (trucks : List Truck) (loads : List Load) (a : Assignment) : List String :=
  match loads.find? (fun l => l.loadId == a.loadId) with
  | none => ["Load " ++ a.loadId ++ " not found"]
  | some load =>
    match trucks.find? (fun t => t.truckId == a.truckId) with
    | none => ["Truck " ++ a.truckId ++ " not found"]
    | some truck =>
      (if !truck.active then ["Truck " ++ a.truckId ++ " is inactive"] else []) ++
      (if decide (load.sizeTons > truck.capacityTons) then
        ["Load " ++ a.loadId ++ " (" ++ toString load.sizeTons ++ "T) exceeds truck " ++
          a.truckId ++ " capacity (" ++ toString truck.capacityTons ++ "T)"] else []) ++
      (if load.status ≠ "unassigned" then
        ["Load " ++ a.loadId ++ " is already " ++ load.status] else [])

/-- embedding of `validateAssignments` from `fairness.ts`: the imperative loop
accumulating into `errors` is a left fold appending each pair's errors -/
def validateAssignments (assignments : List Assignment) (trucks : List Truck)
    (loads : List Load) : AssignmentValidation :=
  let errors := assignments.foldl (fun errs a => errs ++ pairErrors trucks loads a) []
  { valid := errors.length == 0, errors := errors }

end fairness

namespace initialLoads

/-- embedding of `calculateFairnessMetrics` from `initialLoads.ts`: identical
to the `fairness.ts` version except that it has no zero-active-trucks guard,
so on an input with no active trucks both divisions are by zero (NaN) -/
def calculateFairnessMetrics (trucks : List Truck) : FairnessMetrics :=
  let activeTrucks := trucks.filter (fun t => t.active)
  let belowQuota := activeTrucks.filter (fun t => decide (t.weeklyLoads < t.minWeeklyLoads))
  let atQuota := activeTrucks.filter (fun t => decide (t.weeklyLoads = t.minWeeklyLoads))
  let aboveQuota := activeTrucks.filter (fun t => decide (t.weeklyLoads > t.minWeeklyLoads))
  let totalLoads := activeTrucks.foldl (fun sum t => sum + t.weeklyLoads) 0
  { totalTrucks := activeTrucks.length
    trucksAtQuota := atQuota.length
    trucksBelowQuota := belowQuota.length
    trucksAboveQuota := aboveQuota.length
    fairnessPercentage :=
      (jsDivOpt ((atQuota.length + aboveQuota.length : Nat) : Rat) (activeTrucks.length : Rat)).map
        (fun r => ((jsRound (r * 100) : Int) : Rat))
    averageLoadsPerTruck :=
      (jsDivOpt totalLoads (activeTrucks.length : Rat)).map
        (fun r => ((jsRound (r * 10) : Int) : Rat) / 10) }

end initialLoads

/-! Concrete records used by witnesses and counterexamples, shaped like the
fixtures of `fairness.test.ts`. -/

/-- an active large truck with capacity 18, weeklyLoads 2, quota 3 -/
def truckActiveA : Truck :=
  { id := "1", truckId := "T-001", contractorName := "Alpha Trucking", size := "large",
    capacityTons := 18, weeklyLoads := 2, minWeeklyLoads := 3, active := true }

/-- a second active truck with a distinct truckId -/
def truckActiveB : Truck :=
  { id := "2", truckId := "T-002", contractorName := "Beta Trucking", size := "large",
    capacityTons := 18, weeklyLoads := 2, minWeeklyLoads := 3, active := true }

/-- an inactive truck with capacity 20 -/
def truckInactiveC : Truck :=
  { id := "3", truckId := "T-003", contractorName := "Gamma Trucking", size := "large",
    capacityTons := 20, weeklyLoads := 5, minWeeklyLoads := 3, active := false }

/-- a truck sharing truckId T-001 with `truckActiveA` but with different attributes -/
def truckDupA : Truck :=
  { id := "9", truckId := "T-001", contractorName := "Dup Trucking", size := "small",
    capacityTons := 1, weeklyLoads := 0, minWeeklyLoads := 3, active := false }

/-- an unassigned 8-ton load -/
def loadUnassignedA : Load :=
  { id := "1", loadId := "L-1001", sizeTons := 8, destination := "Kingston",
    origin := "JBG Depot", priority := "high", deadline := "2026-01-14T08:00:00Z",
    status := "unassigned", assignedTruckId := none }

/-- an unassigned 25-ton load, larger than every fixture truck -/
def loadBigD : Load :=
  { id := "2", loadId := "L-2002", sizeTons := 25, destination := "Negril",
    origin := "JBG Depot", priority := "low", deadline := "2026-01-15T08:00:00Z",
    status := "unassigned", assignedTruckId := none }

/-- a load sharing loadId L-1001 with `loadUnassignedA` but with different attributes -/
def loadDupA : Load :=
  { id := "9", loadId := "L-1001", sizeTons := 99, destination := "Montego Bay",
    origin := "Elsewhere", priority := "low", deadline := "2026-02-01T08:00:00Z",
    status := "assigned", assignedTruckId := some "T-001" }

/-- the five-truck fleet of the spec's Scenario B: weeklyLoads [2,3,4,1,5],
minWeeklyLoads 3, all active -/
def scenarioBTrucks : List Truck :=
  [ { id := "1", truckId := "T-001", contractorName := "SB1", size := "large",
      capacityTons := 18, weeklyLoads := 2, minWeeklyLoads := 3, active := true },
    { id := "2", truckId := "T-002", contractorName := "SB2", size := "large",
      capacityTons := 18, weeklyLoads := 3, minWeeklyLoads := 3, active := true },
    { id := "3", truckId := "T-003", contractorName := "SB3", size := "large",
      capacityTons := 18, weeklyLoads := 4, minWeeklyLoads := 3, active := true },
    { id := "4", truckId := "T-004", contractorName := "SB4", size := "large",
      capacityTons := 18, weeklyLoads := 1, minWeeklyLoads := 3, active := true },
    { id := "5", truckId := "T-005", contractorName := "SB5", size := "large",
      capacityTons := 18, weeklyLoads := 5, minWeeklyLoads := 3, active := true } ]

/-! Helper lemmas shared between claim theorems. -/

/-- the three quota filters of the source partition any truck list by the
trichotomy on `weeklyLoads` versus `minWeeklyLoads` -/
theorem length_filter_trichotomy (l : List Truck) :
    (l.filter (fun t => decide (t.weeklyLoads < t.minWeeklyLoads))).length
      + (l.filter (fun t => decide (t.weeklyLoads = t.minWeeklyLoads))).length
      + (l.filter (fun t => decide (t.weeklyLoads > t.minWeeklyLoads))).length
      = l.length := by
  induction l with
  | nil => simp
  | cons t ts ih =>
    rcases lt_trichotomy t.weeklyLoads t.minWeeklyLoads with h | h | h
    · simp only [List.filter_cons, decide_eq_true_eq]
      rw [if_pos h, if_neg h.ne, if_neg (not_lt_of_gt h)]
      simp only [List.length_cons]
      omega
    · simp only [List.filter_cons, decide_eq_true_eq]
      rw [if_neg (by rw [h]; exact lt_irrefl _), if_pos h, if_neg (by rw [h]; exact lt_irrefl _)]
      simp only [List.length_cons]
      omega
    · simp only [List.filter_cons, decide_eq_true_eq]
      rw [if_neg (not_lt_of_gt h), if_neg h.ne', if_pos h]
      simp only [List.length_cons]
      omega

/-- the Boolean active filter agrees with the propositional one -/
theorem filter_active_eq (trucks : List Truck) :
    trucks.filter (fun t => decide (t.active = true)) = trucks.filter (fun t => t.active) := by
  apply List.filter_congr
  intro t _
  cases t.active <;> simp

/-- a collection with an active truck has a nonempty active filter -/
theorem active_filter_length_ne_zero {trucks : List Truck}
    (h : ∃ t ∈ trucks, t.active = true) :
    (trucks.filter (fun t => t.active)).length ≠ 0 := by
  obtain ⟨t, ht, hact⟩ := h
  have hmem : t ∈ trucks.filter (fun t => t.active) := List.mem_filter.mpr ⟨ht, hact⟩
  intro h0
  rw [List.length_eq_zero] at h0
  rw [h0] at hmem
  exact absurd hmem (List.not_mem_nil t)

/-! Claim theorems. -/

/-- Claim C1: on any truck collection with zero active trucks (empty, or only
inactive trucks), `fairness.calculateFairnessMetrics` returns the metrics
object whose six fields are all exactly 0 — the percentage and average are the
number 0 (`some 0`), never NaN (`none`). -/
theorem calculateFairnessMetrics_zero_active (trucks : List Truck)
    (h : ∀ t ∈ trucks, t.active = false) :
    fairness.calculateFairnessMetrics trucks =
      { totalTrucks := 0, trucksAtQuota := 0, trucksBelowQuota := 0, trucksAboveQuota := 0,
        fairnessPercentage := some 0, averageLoadsPerTruck := some 0 } := by
  have hfil : trucks.filter (fun t => t.active) = [] := by
    rw [List.filter_eq_nil_iff]
    intro t ht
    simp [h t ht]
  simp [fairness.calculateFairnessMetrics, hfil]

/-- witness for C1: a one-truck inactive fleet evaluates to the all-zero metrics -/
theorem calculateFairnessMetrics_zero_active_witness :
    (∀ t ∈ [truckInactiveC], t.active = false) ∧
      fairness.calculateFairnessMetrics [truckInactiveC] =
        { totalTrucks := 0, trucksAtQuota := 0, trucksBelowQuota := 0, trucksAboveQuota := 0,
          fairnessPercentage := some 0, averageLoadsPerTruck := some 0 } :=
  ⟨by decide, calculateFairnessMetrics_zero_active [truckInactiveC] (by decide)⟩

/-- Claim C2 counterexample: on the empty collection the two implementations
disagree — the `fairness.ts` version returns all-zero metrics while the
`initialLoads.ts` helper divides by zero, producing NaN (modelled `none`) in
`fairnessPercentage` and `averageLoadsPerTruck`. -/
theorem calculateFairnessMetrics_impls_differ_on_empty :
    fairness.calculateFairnessMetrics [] ≠ initialLoads.calculateFairnessMetrics [] := by
  decide

/-- Claim C2 (amended): for every truck collection containing at least one
active truck, the two implementations of the fairness-metrics computation
return identical metrics objects in all six fields. -/
theorem calculateFairnessMetrics_impls_agree_of_active (trucks : List Truck)
    (h : ∃ t ∈ trucks, t.active = true) :
    fairness.calculateFairnessMetrics trucks = initialLoads.calculateFairnessMetrics trucks := by
  have hne := active_filter_length_ne_zero h
  simp only [fairness.calculateFairnessMetrics, initialLoads.calculateFairnessMetrics]
  rw [if_neg hne]

/-- witness for amended C2: the two implementations agree on a concrete
one-active-truck fleet -/
theorem calculateFairnessMetrics_impls_agree_witness :
    (∃ t ∈ [truckActiveA], t.active = true) ∧
      fairness.calculateFairnessMetrics [truckActiveA] =
        initialLoads.calculateFairnessMetrics [truckActiveA] :=
  ⟨by decide, calculateFairnessMetrics_impls_agree_of_active [truckActiveA] (by decide)⟩

/-- Claim C3: for every truck collection, the metrics satisfy
`trucksBelowQuota + trucksAtQuota + trucksAboveQuota = totalTrucks`, and
`totalTrucks` is the number of input trucks with `active = true`. -/
theorem calculateFairnessMetrics_partition (trucks : List Truck) :
    (fairness.calculateFairnessMetrics trucks).trucksBelowQuota
        + (fairness.calculateFairnessMetrics trucks).trucksAtQuota
        + (fairness.calculateFairnessMetrics trucks).trucksAboveQuota
      = (fairness.calculateFairnessMetrics trucks).totalTrucks
    ∧ (fairness.calculateFairnessMetrics trucks).totalTrucks
      = (trucks.filter (fun t => decide (t.active = true))).length := by
  rw [filter_active_eq]
  by_cases h0 : (trucks.filter (fun t => t.active)).length = 0
  · constructor
    · simp [fairness.calculateFairnessMetrics, h0]
    · simp [fairness.calculateFairnessMetrics, h0]
  · simp only [fairness.calculateFairnessMetrics, if_neg h0]
    exact ⟨length_filter_trichotomy _, trivial⟩

/-- Claim C7: for every batch and collections, `valid` holds exactly when the
error list is empty; and the empty batch validates to `{ valid := true,
errors := [] }` against any collections. -/
theorem validateAssignments_valid_iff (a : List Assignment) (t : List Truck) (l : List Load) :
    ((fairness.validateAssignments a t l).valid = true
        ↔ (fairness.validateAssignments a t l).errors = [])
    ∧ fairness.validateAssignments [] t l = { valid := true, errors := [] } := by
  constructor
  · simp [fairness.validateAssignments, List.length_eq_zero]
  · rfl

/-- Claim C9: whenever at least one truck is active, `fairnessPercentage` is
exactly `round(100 × (at-quota + above-quota) / active count)` with round
half-up (`jsRound q = ⌊q + 1/2⌋`), the active count being `totalTrucks`. -/
theorem fairnessPercentage_formula (trucks : List Truck)
    (h : ∃ t ∈ trucks, t.active = true) :
    (fairness.calculateFairnessMetrics trucks).fairnessPercentage =
      some ((jsRound (100 * (((fairness.calculateFairnessMetrics trucks).trucksAtQuota
          + (fairness.calculateFairnessMetrics trucks).trucksAboveQuota : Nat) : Rat)
        / ((fairness.calculateFairnessMetrics trucks).totalTrucks : Rat)) : Int) : Rat) := by
  have hne := active_filter_length_ne_zero h
  simp only [fairness.calculateFairnessMetrics, if_neg hne]
  have hcast : ((trucks.filter (fun t => t.active)).length : Rat) ≠ 0 := by
    exact_mod_cast hne
  rw [jsDivOpt, if_neg hcast, Option.map_some']
  congr 2
  rw [div_mul_eq_mul_div, mul_comm]

/-- witness for C9: Scenario B — five active trucks with weeklyLoads
[2,3,4,1,5] and quota 3 give fairnessPercentage 60 -/
theorem fairnessPercentage_formula_witness :
    (∃ t ∈ scenarioBTrucks, t.active = true) ∧
      (fairness.calculateFairnessMetrics scenarioBTrucks).fairnessPercentage = some 60 := by
  refine ⟨by decide, (fairnessPercentage_formula scenarioBTrucks (by decide)).trans ?_⟩
  have hat : (fairness.calculateFairnessMetrics scenarioBTrucks).trucksAtQuota = 1 := by decide
  have habove : (fairness.calculateFairnessMetrics scenarioBTrucks).trucksAboveQuota = 2 := by
    decide
  have htot : (fairness.calculateFairnessMetrics scenarioBTrucks).totalTrucks = 5 := by decide
  rw [hat, habove, htot]
  norm_num [jsRound]

/-- the error list accumulated by the validation loop is the concatenation of
each pair's errors, in batch order: no pair's findings suppress another's -/
theorem validateAssignments_errors_flatten (a : List Assignment) (t : List Truck)
    (l : List Load) :
    (fairness.validateAssignments a t l).errors
      = (a.map (fairness.pairErrors t l)).flatten := by
  show a.foldl (fun errs x => errs ++ fairness.pairErrors t l x) [] = _
  have key : ∀ (xs : List Assignment) (init : List String),
      xs.foldl (fun errs x => errs ++ fairness.pairErrors t l x) init
        = init ++ (xs.map (fairness.pairErrors t l)).flatten := by
    intro xs
    induction xs with
    | nil => intro init; simp
    | cons x rest ih =>
      intro init
      simp only [List.foldl_cons, List.map_cons, List.flatten_cons, ih, List.append_assoc]
  simpa using key a []

/-- two strings whose character data start with distinct characters differ -/
theorem string_ne_of_data_head {s t : String} (c d : Char)
    (hs : s.data = c :: s.data.tail) (ht : t.data = d :: t.data.tail)
    (hcd : c ≠ d) : s ≠ t := by
  intro h
  subst h
  have h2 := hs.symm.trans ht
  injection h2 with h3 h4
  exact hcd h3

/-- Claim C8: for any pair of the batch whose load and truck both resolve,
with the truck inactive and the load over capacity, the result contains both
the inactive-truck error and the capacity-exceeded error, and the two strings
are distinct; this holds whatever the other pairs of the batch are. -/
theorem validateAssignments_multiplicity (batch : List Assignment) (trucks : List Truck)
    (loads : List Load) (a : Assignment) (load : Load) (truck : Truck)
    (hmem : a ∈ batch)
    (hl : loads.find? (fun l => l.loadId == a.loadId) = some load)
    (ht : trucks.find? (fun t => t.truckId == a.truckId) = some truck)
    (hact : truck.active = false)
    (hcap : load.sizeTons > truck.capacityTons) :
    ("Truck " ++ a.truckId ++ " is inactive")
        ∈ (fairness.validateAssignments batch trucks loads).errors
    ∧ ("Load " ++ a.loadId ++ " (" ++ toString load.sizeTons ++ "T) exceeds truck "
          ++ a.truckId ++ " capacity (" ++ toString truck.capacityTons ++ "T)")
        ∈ (fairness.validateAssignments batch trucks loads).errors
    ∧ ("Truck " ++ a.truckId ++ " is inactive")
        ≠ ("Load " ++ a.loadId ++ " (" ++ toString load.sizeTons ++ "T) exceeds truck "
          ++ a.truckId ++ " capacity (" ++ toString truck.capacityTons ++ "T)") := by
  have hpe : ("Truck " ++ a.truckId ++ " is inactive") ∈ fairness.pairErrors trucks loads a
      ∧ ("Load " ++ a.loadId ++ " (" ++ toString load.sizeTons ++ "T) exceeds truck "
          ++ a.truckId ++ " capacity (" ++ toString truck.capacityTons ++ "T)")
        ∈ fairness.pairErrors trucks loads a := by
    rw [fairness.pairErrors, hl, ht]
    simp [hact, hcap]
  rw [validateAssignments_errors_flatten]
  refine ⟨?_, ?_, ?_⟩
  · exact List.mem_flatten.mpr ⟨_, List.mem_map_of_mem _ hmem, hpe.1⟩
  · exact List.mem_flatten.mpr ⟨_, List.mem_map_of_mem _ hmem, hpe.2⟩
  · have hsT : ("Truck " ++ a.truckId ++ " is inactive").data
        = 'T' :: ("Truck " ++ a.truckId ++ " is inactive").data.tail := by
      rw [String.data_append, String.data_append,
        show "Truck ".data = 'T' :: "ruck ".data from rfl]
      simp
    have hsL : ("Load " ++ a.loadId ++ " (" ++ toString load.sizeTons ++ "T) exceeds truck "
          ++ a.truckId ++ " capacity (" ++ toString truck.capacityTons ++ "T)").data
        = 'L' :: ("Load " ++ a.loadId ++ " (" ++ toString load.sizeTons ++ "T) exceeds truck "
          ++ a.truckId ++ " capacity (" ++ toString truck.capacityTons ++ "T)").data.tail := by
      simp [String.data_append]
    exact string_ne_of_data_head 'T' 'L' hsT hsL (by decide)

/-- witness for C8: a concrete batch referencing the inactive 20-ton truck
T-003 with the unassigned 25-ton load L-2002 -/
theorem validateAssignments_multiplicity_witness :
    ((⟨"L-2002", "T-003"⟩ : Assignment) ∈ ([⟨"L-2002", "T-003"⟩] : List Assignment))
    ∧ ("Truck " ++ "T-003" ++ " is inactive")
        ∈ (fairness.validateAssignments [⟨"L-2002", "T-003"⟩] [truckInactiveC] [loadBigD]).errors := by
  refine ⟨by decide, ?_⟩
  exact (validateAssignments_multiplicity [⟨"L-2002", "T-003"⟩] [truckInactiveC] [loadBigD]
    ⟨"L-2002", "T-003"⟩ loadBigD truckInactiveC (by decide) (by decide) (by decide)
    (by decide) (by decide)).1

/-- a list element that would only match the search predicate when some
earlier element already matches it is invisible to `find?`: removing it
leaves the first match unchanged -/
theorem find?_middle_shadowed {α : Type} (p : α → Bool) (pre post : List α) (y : α)
    (h : p y = true → ∃ z ∈ pre, p z = true) :
    (pre ++ y :: post).find? p = (pre ++ post).find? p := by
  rw [List.find?_append, List.find?_append]
  cases hp : pre.find? p with
  | some r => rfl
  | none =>
    have hall := List.find?_eq_none.mp hp
    have hy : ¬ p y = true := by
      intro hpy
      obtain ⟨z, hz, hpz⟩ := h hpy
      exact hall z hz hpz
    rw [List.find?_cons_of_neg _ hy]

/-- a truck record preceded anywhere in the collection by one with the same
truckId contributes nothing to any pair's error list -/
theorem pairErrors_truck_shadowed (pre post : List Truck) (t : Truck) (loads : List Load)
    (ht : ∃ t₀ ∈ pre, t₀.truckId = t.truckId) (x : Assignment) :
    fairness.pairErrors (pre ++ t :: post) loads x
      = fairness.pairErrors (pre ++ post) loads x := by
  have hft : (pre ++ t :: post).find? (fun tr => tr.truckId == x.truckId)
      = (pre ++ post).find? (fun tr => tr.truckId == x.truckId) := by
    apply find?_middle_shadowed
    intro hpy
    obtain ⟨t₀, ht₀, hid⟩ := ht
    have hx : t.truckId = x.truckId := by simpa using hpy
    exact ⟨t₀, ht₀, by simp [hid, hx]⟩
  rw [fairness.pairErrors, fairness.pairErrors, hft]

/-- a load record preceded anywhere in the collection by one with the same
loadId contributes nothing to any pair's error list -/
theorem pairErrors_load_shadowed (trucks : List Truck) (pre post : List Load) (ld : Load)
    (hl : ∃ l₀ ∈ pre, l₀.loadId = ld.loadId) (x : Assignment) :
    fairness.pairErrors trucks (pre ++ ld :: post) x
      = fairness.pairErrors trucks (pre ++ post) x := by
  have hfl : (pre ++ ld :: post).find? (fun l => l.loadId == x.loadId)
      = (pre ++ post).find? (fun l => l.loadId == x.loadId) := by
    apply find?_middle_shadowed
    intro hpy
    obtain ⟨l₀, hl₀, hid⟩ := hl
    have hx : ld.loadId = x.loadId := by simpa using hpy
    exact ⟨l₀, hl₀, by simp [hid, hx]⟩
  rw [fairness.pairErrors, fairness.pairErrors, hfl]

/-- two collection pairs yielding the same per-pair errors yield the same
validation result -/
theorem validateAssignments_ext (batch : List Assignment) (t₁ t₂ : List Truck)
    (l₁ l₂ : List Load)
    (h : ∀ x ∈ batch, fairness.pairErrors t₁ l₁ x = fairness.pairErrors t₂ l₂ x) :
    fairness.validateAssignments batch t₁ l₁ = fairness.validateAssignments batch t₂ l₂ := by
  have he : (fairness.validateAssignments batch t₁ l₁).errors
      = (fairness.validateAssignments batch t₂ l₂).errors := by
    rw [validateAssignments_errors_flatten, validateAssignments_errors_flatten,
      List.map_congr_left h]
  calc fairness.validateAssignments batch t₁ l₁
      = { valid := (fairness.validateAssignments batch t₁ l₁).errors.length == 0,
          errors := (fairness.validateAssignments batch t₁ l₁).errors } := rfl
    _ = { valid := (fairness.validateAssignments batch t₂ l₂).errors.length == 0,
          errors := (fairness.validateAssignments batch t₂ l₂).errors } := by rw [he]
    _ = fairness.validateAssignments batch t₂ l₂ := rfl

/-- Claim C10: identifier lookup in `validateAssignments` is first-match.
Any truck record preceded anywhere in the trucks collection by a record with
the same truckId has no effect on the validation result, whatever the loads
collection is; and independently any load record preceded anywhere in the
loads collection by a record with the same loadId has no effect, whatever the
trucks collection is: every pair is checked against the first matching record
in input order only. -/
theorem validateAssignments_first_match (batch : List Assignment) :
    (∀ (loads : List Load) (pre post : List Truck) (t : Truck),
        (∃ t₀ ∈ pre, t₀.truckId = t.truckId) →
        fairness.validateAssignments batch (pre ++ t :: post) loads
          = fairness.validateAssignments batch (pre ++ post) loads)
    ∧ (∀ (trucks : List Truck) (pre post : List Load) (ld : Load),
        (∃ l₀ ∈ pre, l₀.loadId = ld.loadId) →
        fairness.validateAssignments batch trucks (pre ++ ld :: post)
          = fairness.validateAssignments batch trucks (pre ++ post)) := by
  constructor
  · intro loads pre post t ht
    exact validateAssignments_ext batch _ _ _ _
      (fun x _ => pairErrors_truck_shadowed pre post t loads ht x)
  · intro trucks pre post ld hl
    exact validateAssignments_ext batch _ _ _ _
      (fun x _ => pairErrors_load_shadowed trucks pre post ld hl x)

/-- witness for C10: the duplicate record `truckDupA` (truckId T-001, shadowed
by `truckActiveA` and sitting in the middle of the collection, with
duplicate-free loads) changes nothing, and the duplicate record `loadDupA`
(loadId L-1001, shadowed by `loadUnassignedA`, with duplicate-free trucks)
changes nothing -/
theorem validateAssignments_first_match_witness :
    (∃ t₀ ∈ [truckActiveA], t₀.truckId = truckDupA.truckId)
    ∧ (∃ l₀ ∈ [loadUnassignedA], l₀.loadId = loadDupA.loadId)
    ∧ fairness.validateAssignments [⟨"L-1001", "T-001"⟩]
        ([truckActiveA] ++ truckDupA :: [truckActiveB]) [loadUnassignedA]
      = fairness.validateAssignments [⟨"L-1001", "T-001"⟩]
        ([truckActiveA] ++ [truckActiveB]) [loadUnassignedA]
    ∧ fairness.validateAssignments [⟨"L-1001", "T-001"⟩] [truckActiveA]
        ([loadUnassignedA] ++ loadDupA :: [])
      = fairness.validateAssignments [⟨"L-1001", "T-001"⟩] [truckActiveA]
        ([loadUnassignedA] ++ []) :=
  ⟨by decide, by decide,
    (validateAssignments_first_match [⟨"L-1001", "T-001"⟩]).1 [loadUnassignedA]
      [truckActiveA] [truckActiveB] truckDupA (by decide),
    (validateAssignments_first_match [⟨"L-1001", "T-001"⟩]).2 [truckActiveA]
      [loadUnassignedA] [] loadDupA (by decide)⟩

/-- Claim C4 counterexample: a batch in which loadId L-1001 appears in two
distinct pairs — the load exists, is unassigned, and both referenced trucks
exist, are active, and have sufficient capacity — produces no validation error
at all: the claimed duplicate-assignment rule does not exist in the code. -/
theorem validateAssignments_duplicate_not_flagged :
    (fairness.validateAssignments
        [⟨"L-1001", "T-001"⟩, ⟨"L-1001", "T-002"⟩] [truckActiveA, truckActiveB]
        [loadUnassignedA]).errors = []
    ∧ (fairness.validateAssignments
        [⟨"L-1001", "T-001"⟩, ⟨"L-1001", "T-002"⟩] [truckActiveA, truckActiveB]
        [loadUnassignedA]).valid = true := by
  constructor
  · rfl
  · rfl

/-- Claim C4 (amended): `validateAssignments` enforces no duplicate-assignment
rule; whenever every pair of the batch passes the five per-pair checks (load
found, truck found, truck active, capacity sufficient, load unassigned), the
batch is reported valid with no errors, even when the same loadId appears in
several distinct pairs. -/
theorem validateAssignments_no_duplicate_rule (batch : List Assignment)
    (trucks : List Truck) (loads : List Load)
    (h : ∀ x ∈ batch, ∃ load truck,
        loads.find? (fun l => l.loadId == x.loadId) = some load
        ∧ trucks.find? (fun t => t.truckId == x.truckId) = some truck
        ∧ truck.active = true ∧ load.sizeTons ≤ truck.capacityTons
        ∧ load.status = "unassigned") :
    fairness.validateAssignments batch trucks loads = { valid := true, errors := [] } := by
  have hpe : ∀ x ∈ batch, fairness.pairErrors trucks loads x = [] := by
    intro x hx
    obtain ⟨load, truck, hfl, hft, hact, hcap, hst⟩ := h x hx
    rw [fairness.pairErrors, hfl, hft]
    simp [hact, hst, not_lt.mpr hcap]
  have he : (fairness.validateAssignments batch trucks loads).errors = [] := by
    rw [validateAssignments_errors_flatten, List.flatten_eq_nil_iff]
    intro s hs
    obtain ⟨x, hx, rfl⟩ := List.mem_map.mp hs
    exact hpe x hx
  calc fairness.validateAssignments batch trucks loads
      = { valid := (fairness.validateAssignments batch trucks loads).errors.length == 0,
          errors := (fairness.validateAssignments batch trucks loads).errors } := rfl
    _ = { valid := ([] : List String).length == 0, errors := ([] : List String) } := by rw [he]
    _ = { valid := true, errors := [] } := rfl

/-- witness for amended C4: the duplicated-loadId batch of the counterexample
satisfies the hypothesis and validates with no errors -/
theorem validateAssignments_no_duplicate_rule_witness :
    fairness.validateAssignments [⟨"L-1001", "T-001"⟩, ⟨"L-1001", "T-002"⟩]
        [truckActiveA, truckActiveB] [loadUnassignedA]
      = { valid := true, errors := [] } := by
  apply validateAssignments_no_duplicate_rule
  intro x hx
  rcases List.mem_cons.mp hx with h1 | h1
  · exact ⟨loadUnassignedA, truckActiveA, by rw [h1]; rfl, by rw [h1]; rfl,
      by decide, by decide, by decide⟩
  · rcases List.mem_cons.mp h1 with h2 | h2
    · exact ⟨loadUnassignedA, truckActiveB, by rw [h2]; rfl, by rw [h2]; rfl,
      by decide, by decide, by decide⟩
    · exact absurd h2 (List.not_mem_nil x)

/-- the below-quota comparator relation is transitive -/
theorem belowQuotaLe_trans : ∀ a b c : Truck, fairness.belowQuotaLe a b = true →
    fairness.belowQuotaLe b c = true → fairness.belowQuotaLe a c = true := by
  intro a b c
  simp only [fairness.belowQuotaLe, decide_eq_true_eq, sub_nonpos]
  exact le_trans

/-- the below-quota comparator relation is total -/
theorem belowQuotaLe_total : ∀ a b : Truck,
    (fairness.belowQuotaLe a b || fairness.belowQuotaLe b a) = true := by
  intro a b
  simp only [fairness.belowQuotaLe, Bool.or_eq_true, decide_eq_true_eq, sub_nonpos]
  exact le_total _ _

/-- stability of the stable sort, phrased through filters: restricting the
sorted output to the elements of one key class reproduces the input's order
of that class, provided the sort relation holds inside each key class -/
theorem mergeSort_filter_eq_of_key {α : Type} (le : α → α → Bool) (p : α → Bool)
    (htrans : ∀ a b c, le a b = true → le b c = true → le a c = true)
    (htotal : ∀ a b, (le a b || le b a) = true)
    (hp : ∀ a b, p a = true → p b = true → le a b = true)
    (l : List α) :
    (l.mergeSort le).filter p = l.filter p := by
  have hpw : List.Pairwise (fun a b => le a b = true) (l.filter p) :=
    List.pairwise_of_forall_mem_list fun a ha b hb =>
      hp a b (List.of_mem_filter ha) (List.of_mem_filter hb)
  have hsub : (l.filter p).Sublist (l.mergeSort le) :=
    List.sublist_mergeSort htrans htotal hpw (List.filter_sublist l)
  have hsub2 := hsub.filter p
  rw [List.filter_filter] at hsub2
  have hself : List.filter (fun a => p a && p a) l = List.filter p l := by
    apply List.filter_congr
    intro a _
    cases p a <;> rfl
  rw [hself] at hsub2
  have hperm : ((l.mergeSort le).filter p).Perm (l.filter p) :=
    (List.mergeSort_perm l le).filter p
  exact (hsub2.eq_of_length hperm.length_eq.symm).symm

/-- Claim C6: `getTrucksBelowQuota` returns exactly the active below-quota
trucks of the input (as a permutation of the corresponding filter), in
non-decreasing `weeklyLoads` order; the output never contains an inactive or
at/above-quota truck; and trucks with equal `weeklyLoads` keep their input
relative order (stability, phrased as equality on every `weeklyLoads` class). -/
theorem getTrucksBelowQuota_spec (trucks : List Truck) :
    ((fairness.getTrucksBelowQuota trucks).Perm
        (trucks.filter (fun t => decide (t.active = true ∧ t.weeklyLoads < t.minWeeklyLoads))))
    ∧ List.Pairwise (fun a b : Truck => a.weeklyLoads ≤ b.weeklyLoads)
        (fairness.getTrucksBelowQuota trucks)
    ∧ (∀ t ∈ fairness.getTrucksBelowQuota trucks,
        t.active = true ∧ t.weeklyLoads < t.minWeeklyLoads)
    ∧ ∀ q : Rat,
        (fairness.getTrucksBelowQuota trucks).filter (fun t => decide (t.weeklyLoads = q))
          = (trucks.filter
                (fun t => t.active && decide (t.weeklyLoads < t.minWeeklyLoads))).filter
              (fun t => decide (t.weeklyLoads = q)) := by
  refine ⟨?_, ?_, ?_, ?_⟩
  · have hfe : trucks.filter
        (fun t => decide (t.active = true ∧ t.weeklyLoads < t.minWeeklyLoads))
        = trucks.filter (fun t => t.active && decide (t.weeklyLoads < t.minWeeklyLoads)) := by
      apply List.filter_congr
      intro t _
      cases h : t.active <;> simp [h]
    rw [fairness.getTrucksBelowQuota, hfe]
    exact List.mergeSort_perm _ _
  · have hs := List.sorted_mergeSort belowQuotaLe_trans belowQuotaLe_total
      (trucks.filter (fun t => t.active && decide (t.weeklyLoads < t.minWeeklyLoads)))
    have hs2 : List.Pairwise (fun a b => fairness.belowQuotaLe a b = true)
        (fairness.getTrucksBelowQuota trucks) := hs
    refine hs2.imp ?_
    intro a b h
    have := of_decide_eq_true h
    exact sub_nonpos.mp this
  · intro t ht
    rw [fairness.getTrucksBelowQuota, List.mem_mergeSort] at ht
    have h2 := (List.mem_filter.mp ht).2
    rw [Bool.and_eq_true, decide_eq_true_eq] at h2
    exact h2
  · intro q
    exact mergeSort_filter_eq_of_key fairness.belowQuotaLe
      (fun t => decide (t.weeklyLoads = q)) belowQuotaLe_trans belowQuotaLe_total
      (fun a b ha hb => by
        have ha2 := of_decide_eq_true ha
        have hb2 := of_decide_eq_true hb
        simp [fairness.belowQuotaLe, ha2, hb2]) _

/-- the two-key suitability comparator relation, unfolded to its
propositional meaning: primary key need descending, secondary key
weeklyLoads ascending -/
theorem suitabilityLe_iff (a b : Truck) :
    fairness.suitabilityLe a b = true ↔
      (fairness.getLoadsNeededForQuota b < fairness.getLoadsNeededForQuota a
        ∨ (fairness.getLoadsNeededForQuota a = fairness.getLoadsNeededForQuota b
            ∧ a.weeklyLoads ≤ b.weeklyLoads)) := by
  by_cases h : fairness.getLoadsNeededForQuota a = fairness.getLoadsNeededForQuota b
  · rw [fairness.suitabilityLe, if_neg (fun hne => hne h)]
    constructor
    · intro hd
      right
      exact ⟨h, sub_nonpos.mp (of_decide_eq_true hd)⟩
    · intro hd
      rcases hd with hlt | ⟨_, hle⟩
      · exact absurd hlt (by rw [h]; exact lt_irrefl _)
      · exact decide_eq_true (sub_nonpos.mpr hle)
  · rw [fairness.suitabilityLe, if_pos h]
    constructor
    · intro hd
      left
      exact lt_of_le_of_ne (sub_nonpos.mp (of_decide_eq_true hd)) (fun e => h e.symm)
    · intro hd
      rcases hd with hlt | ⟨heq, _⟩
      · exact decide_eq_true (sub_nonpos.mpr hlt.le)
      · exact absurd heq h

/-- the suitability comparator relation is transitive -/
theorem suitabilityLe_trans : ∀ a b c : Truck, fairness.suitabilityLe a b = true →
    fairness.suitabilityLe b c = true → fairness.suitabilityLe a c = true := by
  intro a b c hab hbc
  rw [suitabilityLe_iff] at hab hbc ⊢
  rcases hab with h1 | ⟨h1, h1w⟩ <;> rcases hbc with h2 | ⟨h2, h2w⟩
  · left
    exact lt_trans h2 h1
  · left
    rwa [← h2]
  · left
    rwa [h1]
  · right
    exact ⟨h1.trans h2, le_trans h1w h2w⟩

/-- the suitability comparator relation is total -/
theorem suitabilityLe_total : ∀ a b : Truck,
    (fairness.suitabilityLe a b || fairness.suitabilityLe b a) = true := by
  intro a b
  rw [Bool.or_eq_true, suitabilityLe_iff, suitabilityLe_iff]
  rcases lt_trichotomy (fairness.getLoadsNeededForQuota a)
      (fairness.getLoadsNeededForQuota b) with h | h | h
  · right
    left
    exact h
  · rcases le_total a.weeklyLoads b.weeklyLoads with hw | hw
    · left
      right
      exact ⟨h, hw⟩
    · right
      right
      exact ⟨h.symm, hw⟩
  · left
    left
    exact h

/-- on an active truck the need magnitude is `max 0 (minWeeklyLoads - weeklyLoads)` -/
theorem getLoadsNeededForQuota_active {t : Truck} (h : t.active = true) :
    fairness.getLoadsNeededForQuota t = max 0 (t.minWeeklyLoads - t.weeklyLoads) := by
  simp [fairness.getLoadsNeededForQuota, h]

/-- Claim C5: `findSuitableTrucks` returns exactly the active trucks whose
capacity admits the load (as a permutation of the corresponding filter; equal
size and capacity is admitted, inactive trucks never appear), ordered by
quota-need magnitude `max 0 (minWeeklyLoads - weeklyLoads)` descending and,
among trucks of equal need, by `weeklyLoads` ascending. -/
theorem findSuitableTrucks_spec (load : Load) (trucks : List Truck) :
    ((fairness.findSuitableTrucks load trucks).Perm
        (trucks.filter (fun t => decide (t.active = true ∧ load.sizeTons ≤ t.capacityTons))))
    ∧ (∀ t ∈ fairness.findSuitableTrucks load trucks,
        t.active = true ∧ load.sizeTons ≤ t.capacityTons)
    ∧ List.Pairwise (fun a b : Truck =>
        max 0 (b.minWeeklyLoads - b.weeklyLoads) < max 0 (a.minWeeklyLoads - a.weeklyLoads)
        ∨ (max 0 (a.minWeeklyLoads - a.weeklyLoads) = max 0 (b.minWeeklyLoads - b.weeklyLoads)
            ∧ a.weeklyLoads ≤ b.weeklyLoads))
        (fairness.findSuitableTrucks load trucks) := by
  have hmem : ∀ t ∈ fairness.findSuitableTrucks load trucks,
      t.active = true ∧ load.sizeTons ≤ t.capacityTons := by
    intro t ht
    rw [fairness.findSuitableTrucks, List.mem_mergeSort] at ht
    have h2 := (List.mem_filter.mp ht).2
    rw [fairness.canLoadFitInTruck, Bool.and_eq_true, decide_eq_true_eq] at h2
    exact h2
  refine ⟨?_, hmem, ?_⟩
  · have hfe : trucks.filter
        (fun t => decide (t.active = true ∧ load.sizeTons ≤ t.capacityTons))
        = trucks.filter (fun t => fairness.canLoadFitInTruck load t) := by
      apply List.filter_congr
      intro t _
      rw [fairness.canLoadFitInTruck]
      cases h : t.active <;> simp [h]
    rw [fairness.findSuitableTrucks, hfe]
    exact List.mergeSort_perm _ _
  · have hs := List.sorted_mergeSort suitabilityLe_trans suitabilityLe_total
      (trucks.filter (fun t => fairness.canLoadFitInTruck load t))
    have hs2 : List.Pairwise (fun a b => fairness.suitabilityLe a b = true)
        (fairness.findSuitableTrucks load trucks) := hs
    refine List.Pairwise.imp_of_mem ?_ hs2
    intro a b ha hb hle
    rw [suitabilityLe_iff, getLoadsNeededForQuota_active (hmem a ha).1,
      getLoadsNeededForQuota_active (hmem b hb).1] at hle
    exact hle

/-- witness for C6: on a concrete one-truck fleet the active below-quota truck
is in the output and the theorem's membership consequence holds for it -/
theorem getTrucksBelowQuota_spec_witness :
    truckActiveA ∈ fairness.getTrucksBelowQuota [truckActiveA]
    ∧ truckActiveA.active = true
    ∧ truckActiveA.weeklyLoads < truckActiveA.minWeeklyLoads := by
  have hmem : truckActiveA ∈ fairness.getTrucksBelowQuota [truckActiveA] := by
    rw [fairness.getTrucksBelowQuota,
      show List.filter (fun t => t.active && decide (t.weeklyLoads < t.minWeeklyLoads))
          [truckActiveA] = [truckActiveA] from by decide,
      List.mergeSort_singleton]
    exact List.mem_singleton_self _
  exact ⟨hmem, (getTrucksBelowQuota_spec [truckActiveA]).2.2.1 truckActiveA hmem⟩

/-- witness for C5: on a concrete one-truck fleet the fitting active truck is
in the output and the theorem's membership consequence holds for it -/
theorem findSuitableTrucks_spec_witness :
    truckActiveA ∈ fairness.findSuitableTrucks loadUnassignedA [truckActiveA]
    ∧ truckActiveA.active = true
    ∧ loadUnassignedA.sizeTons ≤ truckActiveA.capacityTons := by
  have hmem : truckActiveA ∈ fairness.findSuitableTrucks loadUnassignedA [truckActiveA] := by
    rw [fairness.findSuitableTrucks,
      show List.filter (fun t => fairness.canLoadFitInTruck loadUnassignedA t)
          [truckActiveA] = [truckActiveA] from by decide,
      List.mergeSort_singleton]
    exact List.mem_singleton_self _
  exact ⟨hmem, (findSuitableTrucks_spec loadUnassignedA [truckActiveA]).2.1 truckActiveA hmem⟩
